import Mathlib

/-!
Shallow embedding of the Project Dependency Graph Engine of `src/analyzer.js`
(class `ProjectAnalyzer`).

Modelling conventions:
* JS strings are Lean `String`s; where JS iterates over characters we work on
  `String.toList`.
* The filesystem is a `List String` of the paths that exist on disk;
  `fs.existsSync p` becomes list membership.
* A JS `Set` (insertion-ordered, deduplicated) is a `List` grown with
  `jsSetAdd`, which appends only elements not already present.
* Reading a file (`fs.readFile`, which can throw) is a function
  `String → Option String`; `none` is a read failure caught by the
  surrounding `try/catch`.
* The two regular expressions of `analyzeFile`/`extractImports` are
  implemented as deterministic matchers over `List Char`; each character
  class that is repeated greedily is disjoint from the character required
  next by the pattern, so greedy matching without backtracking computes the
  same match as the JS regex engine, and scanning start positions from the
  left yields the leftmost match that `String.prototype.match` returns.
-/

namespace Analyzer

/-- JS `\s` (ASCII part: space, tab, newline, carriage return, vertical tab,
form feed); the source texts analysed here contain no exotic Unicode spaces. -/
def isJsWS (c : Char) : Bool :=
  c = ' ' || c = '\t' || c = '\n' || c = '\r' || c = Char.ofNat 11 || c = Char.ofNat 12

/-- JS `\w`: ASCII letters, digits and underscore. -/
def isWordChar (c : Char) : Bool :=
  c.isAlpha || c.isDigit || c = '_'

/-- JS character class of the regex: a single or double quote (character codes 39 and 34). -/
def isQuote (c : Char) : Bool :=
  c = '"' || c.toNat = 39

/-- Consume an exact literal (a regex fragment with no metacharacters). -/
def stripLit : List Char → List Char → Option (List Char)
  | [], l => some l
  | _ :: _, [] => none
  | p :: ps, c :: cs => if c = p then stripLit ps cs else none

/-- Regex fragment `\s+` (greedy, at least one whitespace character). -/
def wsPlus : List Char → Option (List Char)
  | [] => none
  | c :: cs => if isJsWS c then some (cs.dropWhile isJsWS) else none

/-- Regex fragment `\w+` (greedy, at least one word character). -/
def wordPlus : List Char → Option (List Char)
  | [] => none
  | c :: cs => if isWordChar c then some (cs.dropWhile isWordChar) else none

/-- Consume one expected character. -/
def expectChar (a : Char) : List Char → Option (List Char)
  | [] => none
  | c :: cs => if c = a then some cs else none

/-- JS split of a string into a single-character-separated list
(`String.prototype.split` with a one-character separator). -/
def splitChar (sep : Char) : List Char → List (List Char)
  | [] => [[]]
  | c :: cs =>
    let rest := splitChar sep cs
    if c = sep then [] :: rest
    else
      match rest with
      | r :: rs => (c :: r) :: rs
      | [] => [[c]]

/-- JS `s.split(sep)` for a one-character separator. -/
def jsSplit (s : String) (sep : Char) : List String :=
  (splitChar sep s.toList).map fun l => ⟨l⟩

/-- JS `s.trim()` restricted to the ASCII whitespace of `isJsWS`. -/
def jsTrim (s : String) : String :=
  ⟨((s.toList.dropWhile isJsWS).reverse.dropWhile isJsWS).reverse⟩

/-- JS `s.startsWith(pre)`. -/
def jsStartsWith (s pre : String) : Bool :=
  pre.toList.isPrefixOf s.toList

/-- Regex fragment `(?:\x7b[^}]*\x7d|\*\s+as\s+\w+|\w+)` — the binding part of
an ES6 import.  The three alternatives start with distinct, mutually exclusive
characters (opening brace, star, word character), so first-match alternation
is a dispatch on the first character. -/
def matchBinding : List Char → Option (List Char)
  | [] => none
  | c :: cs =>
    if c = Char.ofNat 123 then
      -- `[^}]*` then the closing brace (character 125)
      match cs.dropWhile (fun d => d.toNat ≠ 125) with
      | d :: rest => if d.toNat = 125 then some rest else none
      | [] => none
    else if c = '*' then do
      let l ← wsPlus cs
      let l ← stripLit ['a', 's'] l
      let l ← wsPlus l
      wordPlus l
    else if isWordChar c then
      some (cs.dropWhile isWordChar)
    else none

/-- Regex fragment quote-capture-quote: an opening quote, a non-empty greedy
capture of non-quote characters, and a closing quote (either kind).  Returns
the capture together with the remaining input. -/
def quotedCapture : List Char → Option (List Char × List Char)
  | [] => none
  | c :: cs =>
    if isQuote c then
      let cap := cs.takeWhile (fun d => ¬ isQuote d)
      match cs.dropWhile (fun d => ¬ isQuote d) with
      | d :: rest => if isQuote d ∧ cap ≠ [] then some (cap, rest) else none
      | [] => none
    else none

/-- Anchored match of the import regex of `analyzeFile`/`extractImports`
(`src/analyzer.js` lines 139 and 440); returns the capture group. -/
def matchImportFrom (l : List Char) : Option (List Char) := do
  let l ← stripLit "import".toList l
  let l ← wsPlus l
  let l ← matchBinding l
  let l ← wsPlus l
  let l ← stripLit "from".toList l
  let l ← wsPlus l
  let pr ← quotedCapture l
  some pr.1

/-- Anchored match of the require regex of `analyzeFile`/`extractImports`
(`src/analyzer.js` lines 152 and 446); returns the capture group. -/
def matchRequireCall (l : List Char) : Option (List Char) := do
  let l ← stripLit "require".toList l
  let l ← expectChar '(' (l.dropWhile isJsWS)
  let pr ← quotedCapture (l.dropWhile isJsWS)
  let _ ← expectChar ')' (pr.2.dropWhile isJsWS)
  some pr.1

/-- Leftmost match: try the anchored matcher at every start position from the
left, as `String.prototype.match` does for a regex without the `g` flag. -/
def firstCapture (m : List Char → Option (List Char)) : List Char → Option (List Char)
  | [] => m []
  | c :: cs =>
    match m (c :: cs) with
    | some cap => some cap
    | none => firstCapture m cs

/-- Result of `line.match(importRegex)`, reduced to its capture group (`[1]`). -/
def importMatch (line : String) : Option String :=
  (firstCapture matchImportFrom line.toList).map fun cap => ⟨cap⟩

/-- Result of `line.match(requireRegex)`, reduced to its capture group (`[1]`). -/
def requireMatch (line : String) : Option String :=
  (firstCapture matchRequireCall line.toList).map fun cap => ⟨cap⟩

/-- Function `extractImports` (`src/analyzer.js` lines 434-453): per line, push the
import-regex capture if any, then the require-regex capture if any. -/
def extractImports (content : String) : List String :=
  (jsSplit content '\n').foldl
    (fun imports line =>
      let imports :=
        match importMatch line with
        | some spec => imports ++ [spec]
        | none => imports
      match requireMatch line with
      | some spec => imports ++ [spec]
      | none => imports)
    []

/-- JS `Set.prototype.add` on an insertion-ordered, deduplicated list. -/
def jsSetAdd (s : List String) (x : String) : List String :=
  if x ∈ s then s else s ++ [x]

/-- JS `new Set(list)` (deduplication keeping the first occurrence, in order). -/
def jsSetOfList (l : List String) : List String :=
  l.foldl jsSetAdd []

/-- Expression `packageName.split('/')[0]` (`src/analyzer.js` lines 146 and 158); a JS
split always yields at least one element, so index 0 is the head. -/
def mainPackage (packageName : String) : String :=
  (jsSplit packageName '/').headD ""

/-- The used-package accumulation of `analyzeFile` (`src/analyzer.js`
lines 145-148 and 157-160): a reference that is neither `.`-prefixed nor
`/`-prefixed contributes its `split('/')[0]` to the used-package set. -/
def addExternalPackage (usedPackages : List String) (packageName : String) : List String :=
  if ¬ jsStartsWith packageName "." ∧ ¬ jsStartsWith packageName "/" then
    jsSetAdd usedPackages (mainPackage packageName)
  else usedPackages

/-- Result of `analyzeFile` (the `unusedImports` field is always empty in the
source and is omitted). -/
structure FileAnalysis where
  lines : Nat
  imports : List String
  usedPackages : List String
deriving Repr, DecidableEq

/-- One iteration of the line loop of `analyzeFile` (`src/analyzer.js`
lines 135-162), threading the `imports` and `usedPackages` sets. -/
def analyzeLine (acc : List String × List String) (rawLine : String) :
    List String × List String :=
  let line := jsTrim rawLine
  let acc :=
    match importMatch line with
    | some packageName => (jsSetAdd acc.1 packageName, addExternalPackage acc.2 packageName)
    | none => acc
  match requireMatch line with
  | some packageName => (jsSetAdd acc.1 packageName, addExternalPackage acc.2 packageName)
  | none => acc

/-- Function `analyzeFile` (`src/analyzer.js` lines 128-171), dropping the fields the
claims do not mention. -/
def analyzeFile (content : String) : FileAnalysis :=
  let lines := jsSplit content '\n'
  let acc := lines.foldl analyzeLine ([], [])
  { lines := lines.length, imports := acc.1, usedPackages := acc.2 }

/-! ### Path arithmetic

`path.dirname`, `path.resolve` and `path.join` of Node (POSIX flavour), in
the cases this program exercises: every scanned source file is an absolute
path (the scan is rooted at `process.cwd()`), so `path.resolve(dir, rel)`
never consults the working directory, and none of the paths carry a trailing
slash. -/

/-- Normalisation of `/`-separated segments: empty and `.` segments vanish,
`..` pops (and is dropped at the root, as for Node absolute paths). -/
def normSegs (segs : List String) : List String :=
  segs.foldl
    (fun acc seg =>
      if seg = "" ∨ seg = "." then acc
      else if seg = ".." then acc.dropLast
      else acc ++ [seg])
    []

/-- Rebuild a normalised absolute path from a raw slash-joined string. -/
def normalizeAbs (p : String) : String :=
  "/" ++ String.intercalate "/" (normSegs (jsSplit p '/'))

/-- Node `path.resolve(dir, rel)` for an absolute `dir`. -/
def pathResolve (dir rel : String) : String :=
  if jsStartsWith rel "/" then normalizeAbs rel else normalizeAbs (dir ++ "/" ++ rel)

/-- Node `path.join(a, b)` for an absolute `a` and a relative `b`. -/
def pathJoin (a b : String) : String :=
  normalizeAbs (a ++ "/" ++ b)

/-- Node `path.dirname` (POSIX) on a slash-free-tail absolute or bare path. -/
def pathDirname (p : String) : String :=
  match p.toList.reverse.dropWhile (fun c => c ≠ '/') with
  | [] => "."
  | ['/'] => "/"
  | _ :: rest => ⟨rest.reverse⟩

/-- Node `path.basename` (POSIX): the part after the last slash. -/
def pathBasename (p : String) : String :=
  ⟨(p.toList.reverse.takeWhile (fun c => c ≠ '/')).reverse⟩

/-- The fixed extension list of `resolveImportPath` (`src/analyzer.js`
line 467). -/
def extensions : List String := [".js", ".ts", ".jsx", ".tsx", ".mjs"]

/-- Function `resolveImportPath` (`src/analyzer.js` lines 461-487).  The filesystem is
the list `fsFiles` of paths that exist; `fs.existsSync` is membership.  The
surrounding `try/catch` only guards `path` functions that cannot throw on
string inputs, so it is not modelled. -/
def resolveImportPath (fsFiles : List String) (sourceFile importPath : String) :
    Option String :=
  let sourceDir := pathDirname sourceFile
  let resolvedPath := pathResolve sourceDir importPath
  match (extensions.map (fun ext => resolvedPath ++ ext)).find?
      (fun p => fsFiles.contains p) with
  | some fullPath => some fullPath
  | none =>
    (extensions.map (fun ext => pathJoin resolvedPath ("index" ++ ext))).find?
      (fun p => fsFiles.contains p)

/-- The entry-point name list of `isEntryPoint` (`src/analyzer.js` line 495). -/
def entryPoints : List String := ["index.js", "index.ts", "main.js", "app.js", "server.js"]

/-- Function `isEntryPoint` (`src/analyzer.js` lines 494-498). -/
def isEntryPoint (filePath : String) : Bool :=
  entryPoints.contains (pathBasename filePath)

/-! ### Dead-file detection -/

/-- The body of the inner import loop of `detectDeadFiles` (`src/analyzer.js`
lines 332-339): only `.`-prefixed references are resolved, and only successful
resolutions are added to the used-file set. -/
def usedFileStep (fsFiles : List String) (sourceFile : String)
    (usedFiles : List String) (importPath : String) : List String :=
  if jsStartsWith importPath "." then
    match resolveImportPath fsFiles sourceFile importPath with
    | some resolvedPath => jsSetAdd usedFiles resolvedPath
    | none => usedFiles
  else usedFiles

/-- The used-file set built by `detectDeadFiles` (`src/analyzer.js`
lines 327-344); a file whose read fails (`contents f = none`) is caught and
contributes nothing. -/
def usedFilesOf (fsFiles : List String) (sourceFiles : List String)
    (contents : String → Option String) : List String :=
  sourceFiles.foldl
    (fun usedFiles sourceFile =>
      match contents sourceFile with
      | some content => (extractImports content).foldl (usedFileStep fsFiles sourceFile) usedFiles
      | none => usedFiles)
    []

/-- Function `detectDeadFiles` (`src/analyzer.js` lines 320-354): a file is dead iff it
is in `allFiles`, not in the used-file set, and not an entry point. -/
def detectDeadFiles (fsFiles allFiles sourceFiles : List String)
    (contents : String → Option String) : List String :=
  let usedFiles := usedFilesOf fsFiles sourceFiles contents
  allFiles.filter (fun file => ¬ file ∈ usedFiles ∧ ¬ isEntryPoint file)

/-! ### Cycle detection -/

/-- The import graph of `detectCircularImports` (`src/analyzer.js`
lines 366-374): a `Map` from source file to its extracted import list; a file
whose read fails gets no entry (the `catch` skips `importGraph.set`). -/
def buildImportGraph (sourceFiles : List String) (contents : String → Option String) :
    List (String × List String) :=
  sourceFiles.filterMap fun sourceFile =>
    (contents sourceFile).map fun content => (sourceFile, extractImports content)

/-- Expression `importGraph.get(file) || []` (`src/analyzer.js` line 415). -/
def graphGet (importGraph : List (String × List String)) (file : String) : List String :=
  match importGraph.lookup file with
  | some imports => imports
  | none => []

/-- JS `Array.prototype.indexOf`: first index, or `-1` when absent. -/
def jsIndexOf (l : List String) (x : String) : Int :=
  if x ∈ l then (l.indexOf x : Int) else -1

/-- JS `Array.prototype.slice(start)` with a possibly negative start. -/
def jsSlice (l : List String) (start : Int) : List String :=
  if start < 0 then l.drop (l.length - start.natAbs) else l.drop start.toNat

/-- The mutable state threaded through `dfsDetectCycle`: the shared `visited`
and `recursionStack` sets, the `path` array, and the `circularImports`
output array. -/
structure DfsState where
  visited : List String
  recursionStack : List String
  path : List String
  circularImports : List (List String)
deriving Repr, DecidableEq

/-- Function `dfsDetectCycle` (`src/analyzer.js` lines 398-427).  The JS recursion
terminates because every recursive call either returns without recursing
further or adds a previously unvisited node to `visited`; the `fuel`
argument makes that termination explicit, and any fuel strictly larger than
the recursion depth (callers pass `sourceFiles.length + 2`, which dominates
it) computes the JS result. -/
def dfsDetectCycle (importGraph : List (String × List String)) (fsFiles : List String) :
    Nat → String → DfsState → DfsState
  | 0, _, s => s
  | fuel + 1, file, s =>
    if file ∈ s.recursionStack then
      -- found a cycle: the suffix of `path` from the first occurrence of
      -- `file` (JS `indexOf`/`slice` semantics), closed with `file`
      { s with circularImports :=
          s.circularImports ++ [jsSlice s.path (jsIndexOf s.path file) ++ [file]] }
    else if file ∈ s.visited then s
    else
      let s1 : DfsState :=
        { s with
          visited := s.visited ++ [file]
          recursionStack := s.recursionStack ++ [file]
          path := s.path ++ [file] }
      let s2 := (graphGet importGraph file).foldl
        (fun acc importPath =>
          if jsStartsWith importPath "." then
            match resolveImportPath fsFiles file importPath with
            | some resolvedPath => dfsDetectCycle importGraph fsFiles fuel resolvedPath acc
            | none => acc
          else acc)
        s1
      { s2 with
        recursionStack := s2.recursionStack.erase file
        path := s2.path.dropLast }

/-- The initial state of the traversal of `detectCircularImports`
(`src/analyzer.js` lines 377-378). -/
def initialDfsState : DfsState := ⟨[], [], [], []⟩

/-- The cycle-detection phase of `detectCircularImports` (`src/analyzer.js`
lines 377-386), run over an already-built import graph. -/
def runCycleDetection (importGraph : List (String × List String))
    (fsFiles sourceFiles : List String) : List (List String) :=
  (sourceFiles.foldl
    (fun s file =>
      if file ∈ s.visited then s
      else dfsDetectCycle importGraph fsFiles (sourceFiles.length + 2) file s)
    initialDfsState).circularImports

/-- Function `detectCircularImports` (`src/analyzer.js` lines 360-387). -/
def detectCircularImports (fsFiles sourceFiles : List String)
    (contents : String → Option String) : List (List String) :=
  runCycleDetection (buildImportGraph sourceFiles contents) fsFiles sourceFiles

/-! ### Dependency comparison -/

/-- The dependency-bearing fields of a parsed `package.json`; each field is
the key list of the corresponding object (`Object.keys`), empty when the
field is missing (`|| \x7b\x7d`). -/
structure PackageJson where
  dependencies : List String
  devDependencies : List String
  peerDependencies : List String

/-- Result of `compareDependencies`. -/
structure DependencyComparison where
  unusedDependencies : List String
  missingDependencies : List String
  totalDependencies : Nat
  usedDependencies : Nat
deriving Repr, DecidableEq

/-- Function `compareDependencies` (`src/analyzer.js` lines 179-209).  `usedPackages`
is a JS `Set`, iterated in insertion order; `allDependencies` is the `Set` of
the three concatenated key lists. -/
def compareDependencies (packageJson : PackageJson) (usedPackages : List String) :
    DependencyComparison :=
  let allDependencies := jsSetOfList
    (packageJson.dependencies ++ packageJson.devDependencies ++ packageJson.peerDependencies)
  { unusedDependencies := allDependencies.filter (fun dep => ¬ dep ∈ usedPackages)
    missingDependencies := usedPackages.filter (fun usedPkg => ¬ usedPkg ∈ allDependencies)
    totalDependencies := allDependencies.length
    usedDependencies := usedPackages.length }

/-- Modelled from the spec: the external package identifier of §4.3 — for a
reference starting with `@`, the first two `/`-delimited segments joined by
`/`; otherwise the first segment alone.  `src/analyzer.js` has no such scoped
branch; this definition exists only to compare the derivation of the spec with
`mainPackage` of the code. -/
def specExternalId (ref : String) : String :=
  if jsStartsWith ref "@" then String.intercalate "/" ((jsSplit ref '/').take 2)
  else (jsSplit ref '/').headD ""

/-- Verification helper: an import graph with every `/`-prefixed reference
removed from every adjacency list. -/
def eraseSlashImports (importGraph : List (String × List String)) :
    List (String × List String) :=
  importGraph.map fun kv => (kv.1, kv.2.filter fun ip => ¬ jsStartsWith ip "/")

/-- The anchored matcher `m` captures `cap` at start position `i` of `l` and
matches at no earlier start position — i.e. `cap` is the leftmost match. -/
def IsFirstMatchAt (m : List Char → Option (List Char)) (l : List Char)
    (i : Nat) (cap : List Char) : Prop :=
  m (l.drop i) = some cap ∧ ∀ j, j < i → m (l.drop j) = none

/-! ### Helper lemmas -/

theorem mem_jsSetAdd {s : List String} {x y : String} :
    x ∈ jsSetAdd s y ↔ x ∈ s ∨ x = y := by
  unfold jsSetAdd
  by_cases h : y ∈ s
  · simp only [h, if_true]
    constructor
    · exact fun hx => Or.inl hx
    · rintro (hx | rfl) <;> assumption
  · simp [h]

theorem nodup_jsSetAdd {s : List String} {y : String} (hs : s.Nodup) :
    (jsSetAdd s y).Nodup := by
  unfold jsSetAdd
  by_cases h : y ∈ s
  · simpa [h]
  · simp only [h, if_false]
    refine List.Nodup.append hs (List.nodup_singleton y) ?_
    intro a ha hay
    rw [List.mem_singleton] at hay
    subst hay
    exact h ha

theorem nodup_foldl_jsSetAdd (l : List String) :
    ∀ acc : List String, acc.Nodup → (l.foldl jsSetAdd acc).Nodup := by
  induction l with
  | nil => intro acc h; simpa using h
  | cons a rest ih =>
    intro acc h
    exact ih (jsSetAdd acc a) (nodup_jsSetAdd h)

theorem nodup_jsSetOfList (l : List String) : (jsSetOfList l).Nodup :=
  nodup_foldl_jsSetAdd l [] List.nodup_nil

theorem resolveImportPath_mem_fs {fsFiles : List String} {sourceFile importPath p : String}
    (h : resolveImportPath fsFiles sourceFile importPath = some p) : p ∈ fsFiles := by
  simp only [resolveImportPath] at h
  rcases h1 : (extensions.map
      (fun ext => pathResolve (pathDirname sourceFile) importPath ++ ext)).find?
      (fun q => fsFiles.contains q) with _ | q
  · rw [h1] at h
    simp only at h
    have := List.find?_some h
    simpa [List.elem_iff] using this
  · rw [h1] at h
    simp only [Option.some.injEq] at h
    subst h
    have := List.find?_some h1
    simpa [List.elem_iff] using this

/-- Every successful resolution is an extension-appended candidate or an
index candidate of the resolved base path. -/
theorem resolveImportPath_candidates {fsFiles : List String}
    {sourceFile importPath p : String}
    (h : resolveImportPath fsFiles sourceFile importPath = some p) :
    ∃ ext ∈ extensions,
      p = pathResolve (pathDirname sourceFile) importPath ++ ext ∨
      p = pathJoin (pathResolve (pathDirname sourceFile) importPath) ("index" ++ ext) := by
  simp only [resolveImportPath] at h
  rcases h1 : (extensions.map
      (fun ext => pathResolve (pathDirname sourceFile) importPath ++ ext)).find?
      (fun q => fsFiles.contains q) with _ | q
  · rw [h1] at h
    simp only at h
    have hmem := List.mem_of_find?_eq_some h
    rcases List.mem_map.mp hmem with ⟨ext, hext, rfl⟩
    exact ⟨ext, hext, Or.inr rfl⟩
  · rw [h1] at h
    simp only [Option.some.injEq] at h
    subst h
    have hmem := List.mem_of_find?_eq_some h1
    rcases List.mem_map.mp hmem with ⟨ext, hext, rfl⟩
    exact ⟨ext, hext, Or.inl rfl⟩

theorem mem_usedFileStep {fsFiles : List String} {sourceFile : String}
    {acc : List String} {importPath x : String} :
    x ∈ usedFileStep fsFiles sourceFile acc importPath ↔
      x ∈ acc ∨ (jsStartsWith importPath "." = true ∧
        resolveImportPath fsFiles sourceFile importPath = some x) := by
  unfold usedFileStep
  by_cases h : jsStartsWith importPath "."
  · rcases hr : resolveImportPath fsFiles sourceFile importPath with _ | rp
    · simp [h, hr]
    · simp [h, hr, mem_jsSetAdd, eq_comm]
  · simp [h]

theorem mem_foldl_usedFileStep {fsFiles : List String} {sourceFile : String}
    (imports : List String) :
    ∀ acc x, (x ∈ imports.foldl (usedFileStep fsFiles sourceFile) acc ↔
      x ∈ acc ∨ ∃ ip ∈ imports, jsStartsWith ip "." = true ∧
        resolveImportPath fsFiles sourceFile ip = some x) := by
  induction imports with
  | nil => intro acc x; simp
  | cons ip rest ih =>
    intro acc x
    rw [List.foldl_cons, ih, mem_usedFileStep]
    constructor
    · rintro ((hx | ⟨h1, h2⟩) | ⟨ip', hip', h1, h2⟩)
      · exact Or.inl hx
      · exact Or.inr ⟨ip, List.mem_cons_self ip rest, h1, h2⟩
      · exact Or.inr ⟨ip', List.mem_cons_of_mem ip hip', h1, h2⟩
    · rintro (hx | ⟨ip', hip', h1, h2⟩)
      · exact Or.inl (Or.inl hx)
      · rcases List.mem_cons.mp hip' with rfl | hip''
        · exact Or.inl (Or.inr ⟨h1, h2⟩)
        · exact Or.inr ⟨ip', hip'', h1, h2⟩

theorem mem_usedFilesOf {fsFiles : List String} (sourceFiles : List String)
    (contents : String → Option String) :
    ∀ acc x, (x ∈ sourceFiles.foldl
      (fun usedFiles sourceFile =>
        match contents sourceFile with
        | some content =>
          (extractImports content).foldl (usedFileStep fsFiles sourceFile) usedFiles
        | none => usedFiles) acc ↔
      x ∈ acc ∨ ∃ sf ∈ sourceFiles, ∃ c, contents sf = some c ∧
        ∃ ip ∈ extractImports c, jsStartsWith ip "." = true ∧
          resolveImportPath fsFiles sf ip = some x) := by
  induction sourceFiles with
  | nil => intro acc x; simp
  | cons sf rest ih =>
    intro acc x
    rw [List.foldl_cons, ih]
    rcases hc : contents sf with _ | c
    · simp only [hc]
      constructor
      · rintro (hx | ⟨sf', hsf', hrest⟩)
        · exact Or.inl hx
        · exact Or.inr ⟨sf', List.mem_cons_of_mem sf hsf', hrest⟩
      · rintro (hx | ⟨sf', hsf', c', hc', hrest⟩)
        · exact Or.inl hx
        · rcases List.mem_cons.mp hsf' with rfl | h
          · rw [hc] at hc'; cases hc'
          · exact Or.inr ⟨sf', h, c', hc', hrest⟩
    · simp only [hc]
      rw [mem_foldl_usedFileStep]
      constructor
      · rintro ((hx | ⟨ip, hip, h1, h2⟩) | ⟨sf', hsf', hrest⟩)
        · exact Or.inl hx
        · exact Or.inr ⟨sf, List.mem_cons_self sf rest, c, hc, ip, hip, h1, h2⟩
        · exact Or.inr ⟨sf', List.mem_cons_of_mem sf hsf', hrest⟩
      · rintro (hx | ⟨sf', hsf', c', hc', ip, hip, h1, h2⟩)
        · exact Or.inl (Or.inl hx)
        · rcases List.mem_cons.mp hsf' with rfl | h
          · rw [hc] at hc'
            cases hc'
            exact Or.inl (Or.inr ⟨ip, hip, h1, h2⟩)
          · exact Or.inr ⟨sf', h, c', hc', ip, hip, h1, h2⟩

end Analyzer

namespace Analyzer

/-! ### Claim C1 -/

/-- C1, counterexample: the spec says a scoped reference
`@scope/name/sub/path` contributes the external identifier `@scope/name`
(first two segments) to the used-package set, but `analyzeFile` computes
`split('/')[0]` unconditionally and accumulates `@scope`. -/
theorem claim_C1_counterexample :
    (analyzeFile "import x from \"@scope/name/sub/path\"").usedPackages = ["@scope"] ∧
    specExternalId "@scope/name/sub/path" = "@scope/name" ∧
    ¬ "@scope/name" ∈ (analyzeFile "import x from \"@scope/name/sub/path\"").usedPackages := by
  refine ⟨by decide, by decide, by decide⟩

/-- C1, amended: for every external (non-local) reference, scoped or not, the
identifier accumulated into the used-package set is the first `/`-delimited
segment alone (`split('/')[0]`); in particular `@scope/name/sub/path` yields
`@scope` and `lodash/fp` yields `lodash`, local and absolute references
contribute nothing. -/
theorem claim_C1_amended (ref : String) (usedPackages : List String)
    (h1 : jsStartsWith ref "." = false) (h2 : jsStartsWith ref "/" = false) :
    addExternalPackage usedPackages ref =
      jsSetAdd usedPackages ((jsSplit ref '/').headD "") ∧
    (analyzeFile
      "import a from \"@scope/name/sub/path\"\nconst l = require(\"lodash/fp\");\nimport c from \"./local\"\nimport d from \"/abs\"").usedPackages
      = ["@scope", "lodash"] := by
  constructor
  · simp [addExternalPackage, mainPackage, h1, h2]
  · decide

/-- C1 witness: the amended statement at the concrete reference `lodash/fp`. -/
theorem claim_C1_witness :
    addExternalPackage [] "lodash/fp" = jsSetAdd [] ((jsSplit "lodash/fp" '/').headD "") ∧
    (analyzeFile
      "import a from \"@scope/name/sub/path\"\nconst l = require(\"lodash/fp\");\nimport c from \"./local\"\nimport d from \"/abs\"").usedPackages
      = ["@scope", "lodash"] :=
  claim_C1_amended "lodash/fp" [] (by decide) (by decide)

/-! ### Claim C3 -/

/-- C3, counterexample: resolving `./util.js` when the literal file
`/proj/util.js` exists does *not* return it — `resolveImportPath` has no
exact-match check, so it returns `none`; and when the doubled-extension file
`/proj/util.js.js` also exists, resolution returns that file, so resolution
*does* depend on doubled-extension candidates. -/
theorem claim_C3_counterexample :
    resolveImportPath ["/proj/util.js", "/proj/main.js"] "/proj/main.js" "./util.js" = none ∧
    ¬ resolveImportPath ["/proj/util.js", "/proj/main.js"] "/proj/main.js" "./util.js"
        = some "/proj/util.js" ∧
    resolveImportPath ["/proj/util.js", "/proj/util.js.js", "/proj/main.js"]
      "/proj/main.js" "./util.js" = some "/proj/util.js.js" := by
  refine ⟨by decide, by decide, by decide⟩

/-- C3, amended: `resolveImportPath` never checks the exactly-matching path;
every non-null result is one of the extension-appended candidates
`resolved + ext` or index candidates `resolved/index + ext` that exists on
disk, so a reference that already includes its extension resolves only via a
doubled-extension file such as `util.js.js` (or an index file inside a
directory of that name). -/
theorem claim_C3_amended (fsFiles : List String) (sourceFile importPath p : String)
    (h : resolveImportPath fsFiles sourceFile importPath = some p) :
    p ∈ fsFiles ∧
    ∃ ext ∈ extensions,
      p = pathResolve (pathDirname sourceFile) importPath ++ ext ∨
      p = pathJoin (pathResolve (pathDirname sourceFile) importPath) ("index" ++ ext) :=
  ⟨resolveImportPath_mem_fs h, resolveImportPath_candidates h⟩

/-- C3 witness: the amended statement at the doubled-extension input. -/
theorem claim_C3_witness :
    "/proj/util.js.js" ∈ ["/proj/util.js", "/proj/util.js.js", "/proj/main.js"] ∧
    ∃ ext ∈ extensions,
      "/proj/util.js.js" = pathResolve (pathDirname "/proj/main.js") "./util.js" ++ ext ∨
      "/proj/util.js.js" =
        pathJoin (pathResolve (pathDirname "/proj/main.js") "./util.js") ("index" ++ ext) :=
  claim_C3_amended ["/proj/util.js", "/proj/util.js.js", "/proj/main.js"]
    "/proj/main.js" "./util.js" "/proj/util.js.js" (by decide)

/-! ### Claim C8 -/

/-- C8, confirmed: every non-null result of local import-path resolution is a
path present in the filesystem (it passed the existence check), and hence
every element of the used-file set accumulated by `detectDeadFiles` is a path
present in the filesystem — unresolved references never create dangling
targets. -/
theorem claim_C8 (fsFiles : List String) (sourceFile importPath p : String)
    (sourceFiles : List String) (contents : String → Option String) (f : String) :
    (resolveImportPath fsFiles sourceFile importPath = some p → p ∈ fsFiles) ∧
    (f ∈ usedFilesOf fsFiles sourceFiles contents → f ∈ fsFiles) := by
  constructor
  · exact fun h => resolveImportPath_mem_fs h
  · intro hf
    unfold usedFilesOf at hf
    rcases (mem_usedFilesOf sourceFiles contents [] f).mp hf with h | h
    · cases h
    · rcases h with ⟨sf, _, c, _, ip, _, _, hr⟩
      exact resolveImportPath_mem_fs hr

/-- C8 witness: a resolution and a used-file set over a concrete filesystem. -/
theorem claim_C8_witness :
    ("/p/b.js" ∈ ["/p/a.js", "/p/b.js"]) ∧
    ("/p/b.js" ∈ ["/p/a.js", "/p/b.js"]) :=
  ⟨(claim_C8 ["/p/a.js", "/p/b.js"] "/p/a.js" "./b" "/p/b.js" ["/p/a.js"]
      (fun f => if f = "/p/a.js" then some "const b = require(\"./b\");" else none)
      "/p/b.js").1 (by decide),
   (claim_C8 ["/p/a.js", "/p/b.js"] "/p/a.js" "./b" "/p/b.js" ["/p/a.js"]
      (fun f => if f = "/p/a.js" then some "const b = require(\"./b\");" else none)
      "/p/b.js").2 (by decide)⟩

/-! ### Claim C9 -/

/-- C9, confirmed: for every package.json and every used-package set (a JS
`Set`, hence duplicate-free), `unusedDependencies` and `missingDependencies`
are disjoint and each contains no duplicates. -/
theorem claim_C9 (packageJson : PackageJson) (usedPackages : List String)
    (hused : usedPackages.Nodup) :
    (∀ x, ¬ (x ∈ (compareDependencies packageJson usedPackages).unusedDependencies ∧
             x ∈ (compareDependencies packageJson usedPackages).missingDependencies)) ∧
    (compareDependencies packageJson usedPackages).unusedDependencies.Nodup ∧
    (compareDependencies packageJson usedPackages).missingDependencies.Nodup := by
  refine ⟨?_, ?_, ?_⟩
  · rintro x ⟨hu, hm⟩
    simp only [compareDependencies, List.mem_filter, decide_eq_true_eq] at hu hm
    exact hu.2 hm.1
  · exact List.Nodup.filter _ (nodup_jsSetOfList _)
  · exact List.Nodup.filter _ hused

/-- C9 witness: the comparison at a concrete manifest and used set. -/
theorem claim_C9_witness :
    (∀ x, ¬ (x ∈ (compareDependencies ⟨["a", "b"], ["c"], []⟩ ["b", "d"]).unusedDependencies ∧
             x ∈ (compareDependencies ⟨["a", "b"], ["c"], []⟩ ["b", "d"]).missingDependencies)) ∧
    (compareDependencies ⟨["a", "b"], ["c"], []⟩ ["b", "d"]).unusedDependencies.Nodup ∧
    (compareDependencies ⟨["a", "b"], ["c"], []⟩ ["b", "d"]).missingDependencies.Nodup :=
  claim_C9 ⟨["a", "b"], ["c"], []⟩ ["b", "d"] (by decide)

/-! ### Claim C2 -/

/-- C2, counterexample: with `a.js` importing `b.js` and no entry-point file
anywhere, the entry-point-reachability reading of the claim demands that both
files be dead (no file is an entry point, so nothing is reachable from one),
and that `b.js` — referenced only by the dead `a.js` — be dead in
particular; but `detectDeadFiles` reports only `a.js` dead, because its
used-file set is the plain "imported by someone" relation. -/
theorem claim_C2_counterexample :
    detectDeadFiles ["/p/a.js", "/p/b.js"] ["/p/a.js", "/p/b.js"] ["/p/a.js", "/p/b.js"]
      (fun f => if f = "/p/a.js" then some "const b = require(\"./b\");"
        else if f = "/p/b.js" then some "" else none)
      = ["/p/a.js"] ∧
    ¬ "/p/b.js" ∈ detectDeadFiles ["/p/a.js", "/p/b.js"] ["/p/a.js", "/p/b.js"]
      ["/p/a.js", "/p/b.js"]
      (fun f => if f = "/p/a.js" then some "const b = require(\"./b\");"
        else if f = "/p/b.js" then some "" else none) ∧
    isEntryPoint "/p/b.js" = false ∧
    (∀ e ∈ ["/p/a.js", "/p/b.js"], isEntryPoint e = false) := by
  refine ⟨by decide, by decide, by decide, by decide⟩

/-- C2, amended: dead-file detection is a one-step "used by someone" sweep,
not a reachability computation — a file is reported dead iff it is a scanned
file, is not an entry point, and is not the successfully resolved target of
any `.`-prefixed reference of any readable source file (dead importers keep
their targets alive). -/
theorem claim_C2_amended (fsFiles allFiles sourceFiles : List String)
    (contents : String → Option String) (f : String) :
    (f ∈ detectDeadFiles fsFiles allFiles sourceFiles contents ↔
      f ∈ allFiles ∧ ¬ f ∈ usedFilesOf fsFiles sourceFiles contents ∧
        isEntryPoint f = false) ∧
    (f ∈ usedFilesOf fsFiles sourceFiles contents ↔
      ∃ sf ∈ sourceFiles, ∃ c, contents sf = some c ∧
        ∃ ip ∈ extractImports c, jsStartsWith ip "." = true ∧
          resolveImportPath fsFiles sf ip = some f) := by
  constructor
  · simp [detectDeadFiles, List.mem_filter, Bool.not_eq_true]
  · unfold usedFilesOf
    rw [mem_usedFilesOf sourceFiles contents [] f]
    simp

/-! ### Claim C10 -/

theorem startsWith_slash_not_dot {s : String} (h : jsStartsWith s "/" = true) :
    jsStartsWith s "." = false := by
  unfold jsStartsWith at h ⊢
  rcases hl : s.toList with _ | ⟨c, t⟩ <;> rw [hl] at h
  · rw [show ("/" : String).toList = ['/'] from rfl] at h
    simp [List.isPrefixOf] at h
  · rw [show ("/" : String).toList = ['/'] from rfl] at h
    rw [show ("." : String).toList = ['.'] from rfl]
    simp only [List.isPrefixOf, Bool.and_eq_true, beq_iff_eq] at h
    rcases h with ⟨rfl, -⟩
    simp [List.isPrefixOf]

theorem foldl_filter_of_skip {α β : Type} (f : β → α → β) (p : α → Bool) (l : List α)
    (h : ∀ b a, a ∈ l → p a = false → f b a = b) :
    ∀ init, (l.filter p).foldl f init = l.foldl f init := by
  induction l with
  | nil => intro init; rfl
  | cons a rest ih =>
    intro init
    by_cases hp : p a
    · rw [List.filter_cons_of_pos hp, List.foldl_cons, List.foldl_cons]
      exact ih (fun b x hx hfx => h b x (List.mem_cons_of_mem a hx) hfx) (f init a)
    · rw [List.filter_cons_of_neg (by simpa using hp), List.foldl_cons,
        h init a (List.mem_cons_self a rest) (by simpa using hp)]
      exact ih (fun b x hx hfx => h b x (List.mem_cons_of_mem a hx) hfx) init

theorem graphGet_eraseSlashImports (importGraph : List (String × List String))
    (file : String) :
    graphGet (eraseSlashImports importGraph) file =
      (graphGet importGraph file).filter fun ip => ¬ jsStartsWith ip "/" := by
  induction importGraph with
  | nil => rfl
  | cons kv rest ih =>
    rcases kv with ⟨k, v⟩
    unfold eraseSlashImports at ih ⊢
    unfold graphGet at ih ⊢
    by_cases hk : file = k
    · subst hk
      simp [List.lookup]
    · simp only [List.map_cons, List.lookup,
        show (file == k) = false by simpa using hk]
      exact ih

theorem dfsDetectCycle_eraseSlash (importGraph : List (String × List String))
    (fsFiles : List String) :
    ∀ fuel file s, dfsDetectCycle (eraseSlashImports importGraph) fsFiles fuel file s =
      dfsDetectCycle importGraph fsFiles fuel file s := by
  intro fuel
  induction fuel with
  | zero => intro file s; rfl
  | succ fuel ih =>
    intro file s
    simp only [dfsDetectCycle]
    by_cases h1 : file ∈ s.recursionStack
    · simp [h1]
    · by_cases h2 : file ∈ s.visited
      · simp [h1, h2]
      · simp only [h1, h2, if_false]
        simp only [ih]
        rw [graphGet_eraseSlashImports]
        rw [foldl_filter_of_skip]
        intro b a _ hpa
        have ha : jsStartsWith a "/" = true := by simpa using hpa
        simp [startsWith_slash_not_dot ha]

theorem runCycleDetection_eraseSlash (importGraph : List (String × List String))
    (fsFiles sourceFiles : List String) :
    runCycleDetection (eraseSlashImports importGraph) fsFiles sourceFiles =
      runCycleDetection importGraph fsFiles sourceFiles := by
  simp only [runCycleDetection, dfsDetectCycle_eraseSlash]

/-- C10, confirmed: an absolute-path (`/`-prefixed) reference is invisible to
the analysis — it fails the `.`-prefix guard, so the dead-file sweep adds no
used file for it, cycle detection is unchanged when all such references are
removed from the import graph, and the used-package accumulation of
`analyzeFile` excludes it. -/
theorem claim_C10 (ip : String) (fsFiles : List String) (sourceFile : String)
    (usedFiles usedPackages : List String)
    (importGraph : List (String × List String)) (sourceFiles : List String)
    (h : jsStartsWith ip "/" = true) :
    jsStartsWith ip "." = false ∧
    usedFileStep fsFiles sourceFile usedFiles ip = usedFiles ∧
    addExternalPackage usedPackages ip = usedPackages ∧
    runCycleDetection (eraseSlashImports importGraph) fsFiles sourceFiles =
      runCycleDetection importGraph fsFiles sourceFiles := by
  refine ⟨startsWith_slash_not_dot h, ?_, ?_, runCycleDetection_eraseSlash _ _ _⟩
  · unfold usedFileStep
    simp [startsWith_slash_not_dot h]
  · unfold addExternalPackage
    simp [h]

/-- C10 witness: the statement at the concrete absolute reference `/abs/x`. -/
theorem claim_C10_witness :
    jsStartsWith "/abs/x" "." = false ∧
    usedFileStep [] "/p/a.js" [] "/abs/x" = [] ∧
    addExternalPackage [] "/abs/x" = [] ∧
    runCycleDetection (eraseSlashImports [("/p/a.js", ["/abs/x"])]) [] ["/p/a.js"] =
      runCycleDetection [("/p/a.js", ["/abs/x"])] [] ["/p/a.js"] :=
  claim_C10 "/abs/x" [] "/p/a.js" [] [] [("/p/a.js", ["/abs/x"])] ["/p/a.js"] (by decide)

/-! ### Claim C4 -/

theorem jsSlice_jsIndexOf_of_mem {l : List String} {x : String} (h : x ∈ l) :
    jsSlice l (jsIndexOf l x) = l.drop (l.indexOf x) := by
  simp [jsIndexOf, jsSlice, h]

/-- The cycle-recording branch of `dfsDetectCycle`: reaching a node already on
the recursion stack appends one cycle and changes nothing else. -/
theorem dfsDetectCycle_hit (importGraph : List (String × List String))
    (fsFiles : List String) (fuel : Nat) (file : String) (s : DfsState)
    (h : file ∈ s.recursionStack) :
    dfsDetectCycle importGraph fsFiles (fuel + 1) file s =
      { s with circularImports :=
          s.circularImports ++ [jsSlice s.path (jsIndexOf s.path file) ++ [file]] } := by
  simp only [dfsDetectCycle, if_pos h]

/-- C4, confirmed: whenever the DFS reaches a node already on the recursion
stack (such a node is always on the current path, which the hypothesis makes
explicit), the one cycle it records is the suffix of the current path from
the first occurrence of that node (`indexOf`), with the node appended once
more at the end; and a self-importing file yields exactly the length-2 cycle
`[file, file]`. -/
theorem claim_C4 (importGraph : List (String × List String)) (fsFiles : List String)
    (fuel : Nat) (file : String) (s : DfsState) (a ip : String) (fs2 : List String)
    (hrec : file ∈ s.recursionStack) (hpath : file ∈ s.path)
    (hidot : jsStartsWith ip "." = true) (hres : resolveImportPath fs2 a ip = some a) :
    dfsDetectCycle importGraph fsFiles (fuel + 1) file s =
      { s with circularImports :=
          s.circularImports ++ [s.path.drop (s.path.indexOf file) ++ [file]] } ∧
    runCycleDetection [(a, [ip])] fs2 [a] = [[a, a]] := by
  constructor
  · rw [dfsDetectCycle_hit importGraph fsFiles fuel file s hrec,
      jsSlice_jsIndexOf_of_mem hpath]
  · unfold runCycleDetection initialDfsState
    simp only [List.foldl_cons, List.foldl_nil, List.length_cons, List.length_nil]
    rw [if_neg (List.not_mem_nil a)]
    simp only [dfsDetectCycle, if_neg (List.not_mem_nil a), List.nil_append]
    rw [show graphGet [(a, [ip])] a = [ip] by simp [graphGet, List.lookup]]
    simp only [List.foldl_cons, List.foldl_nil, hidot, if_pos, hres]
    simp [jsSlice, jsIndexOf, List.indexOf_cons_self]

/-- C4 witness: the hit branch at a concrete state, and a concrete
self-importing file. -/
theorem claim_C4_witness :
    dfsDetectCycle [] [] (0 + 1) "/p/x.js" ⟨["/p/x.js"], ["/p/x.js"], ["/p/x.js"], []⟩ =
      { visited := ["/p/x.js"], recursionStack := ["/p/x.js"], path := ["/p/x.js"],
        circularImports :=
          [] ++ [(["/p/x.js"].drop (["/p/x.js"].indexOf "/p/x.js")) ++ ["/p/x.js"]] } ∧
    runCycleDetection [("/p/a.js", ["./a"])] ["/p/a.js"] ["/p/a.js"] =
      [["/p/a.js", "/p/a.js"]] :=
  claim_C4 [] [] 0 "/p/x.js" ⟨["/p/x.js"], ["/p/x.js"], ["/p/x.js"], []⟩
    "/p/a.js" "./a" ["/p/a.js"] (by decide) (by decide) (by decide) (by decide)

/-! ### Claim C5 -/

/-- The descending branch of `dfsDetectCycle`: an unvisited node is pushed,
its outgoing imports are traversed, and on backtracking it is popped from the
recursion stack and the path. -/
theorem dfsDetectCycle_enter (importGraph : List (String × List String))
    (fsFiles : List String) (fuel : Nat) (file : String) (s : DfsState)
    (h1 : ¬ file ∈ s.recursionStack) (h2 : ¬ file ∈ s.visited) :
    dfsDetectCycle importGraph fsFiles (fuel + 1) file s =
      (let s2 := (graphGet importGraph file).foldl
          (fun acc importPath =>
            if jsStartsWith importPath "." then
              match resolveImportPath fsFiles file importPath with
              | some resolvedPath => dfsDetectCycle importGraph fsFiles fuel resolvedPath acc
              | none => acc
            else acc)
          ⟨s.visited ++ [file], s.recursionStack ++ [file], s.path ++ [file],
            s.circularImports⟩
       { s2 with recursionStack := s2.recursionStack.erase file,
                 path := s2.path.dropLast }) := by
  simp only [dfsDetectCycle, if_neg h1, if_neg h2]

/-- C5, confirmed: on a two-file graph in which the single reference of `a`
resolves to `b` and the single reference of `b` resolves to `a`, cycle detection
returns exactly the one cycle `[a, b, a]` (containing both files); the later
top-level consideration of `b` finds it already visited and reports nothing
further. -/
theorem claim_C5 (a b ipa ipb ca cb : String) (fsFiles : List String)
    (contents : String → Option String)
    (hab : a ≠ b)
    (hca : contents a = some ca) (hcb : contents b = some cb)
    (hia : extractImports ca = [ipa]) (hib : extractImports cb = [ipb])
    (hla : jsStartsWith ipa "." = true) (hlb : jsStartsWith ipb "." = true)
    (hra : resolveImportPath fsFiles a ipa = some b)
    (hrb : resolveImportPath fsFiles b ipb = some a) :
    detectCircularImports fsFiles [a, b] contents = [[a, b, a]] := by
  have hba : b ≠ a := Ne.symm hab
  have e1 : buildImportGraph [a, b] contents = [(a, [ipa]), (b, [ipb])] := by
    simp [buildImportGraph, hca, hcb, hia, hib]
  have gga : graphGet [(a, [ipa]), (b, [ipb])] a = [ipa] := by
    simp [graphGet, List.lookup]
  have ggb : graphGet [(a, [ipa]), (b, [ipb])] b = [ipb] := by
    simp [graphGet, List.lookup, show (b == a) = false by simpa using hba]
  have d2 : dfsDetectCycle [(a, [ipa]), (b, [ipb])] fsFiles 2 a ⟨[a, b], [a, b], [a, b], []⟩
      = ⟨[a, b], [a, b], [a, b], [[a, b, a]]⟩ := by
    rw [show (2 : Nat) = 1 + 1 from rfl,
      dfsDetectCycle_hit _ _ 1 a _ (by simp)]
    simp [jsSlice, jsIndexOf, List.indexOf_cons_self]
  have d3 : dfsDetectCycle [(a, [ipa]), (b, [ipb])] fsFiles 3 b ⟨[a], [a], [a], []⟩
      = ⟨[a, b], [a], [a], [[a, b, a]]⟩ := by
    rw [show (3 : Nat) = 2 + 1 from rfl,
      dfsDetectCycle_enter _ _ 2 b _ (by simp [hba]) (by simp [hba])]
    simp only [ggb, List.cons_append, List.nil_append, List.singleton_append,
      List.foldl_cons, List.foldl_nil, hlb, if_true, hrb]
    rw [d2]
    simp [List.erase_cons, show (a == b) = false by simpa using hab, List.dropLast]
  have d4 : dfsDetectCycle [(a, [ipa]), (b, [ipb])] fsFiles 4 a ⟨[], [], [], []⟩
      = ⟨[a, b], [], [], [[a, b, a]]⟩ := by
    rw [show (4 : Nat) = 3 + 1 from rfl,
      dfsDetectCycle_enter _ _ 3 a _ (List.not_mem_nil a) (List.not_mem_nil a)]
    simp only [gga, List.nil_append, List.foldl_cons, List.foldl_nil, hla, if_true, hra]
    rw [d3]
    simp [List.erase_cons_head, List.dropLast]
  unfold detectCircularImports
  rw [e1]
  unfold runCycleDetection initialDfsState
  simp only [List.length_cons, List.length_nil, List.foldl_cons, List.foldl_nil]
  rw [if_neg (List.not_mem_nil a)]
  norm_num
  rw [d4]
  simp

/-- C5 witness: the two-file mutual-import graph over a concrete filesystem
and concrete file contents. -/
theorem claim_C5_witness :
    detectCircularImports ["/p/a.js", "/p/b.js"] ["/p/a.js", "/p/b.js"]
      (fun f => if f = "/p/a.js" then some "const b = require(\"./b\");"
        else if f = "/p/b.js" then some "const a = require(\"./a\");" else none)
      = [["/p/a.js", "/p/b.js", "/p/a.js"]] :=
  claim_C5 "/p/a.js" "/p/b.js" "./b" "./a"
    "const b = require(\"./b\");" "const a = require(\"./a\");"
    ["/p/a.js", "/p/b.js"]
    (fun f => if f = "/p/a.js" then some "const b = require(\"./b\");"
      else if f = "/p/b.js" then some "const a = require(\"./a\");" else none)
    (by decide) (by decide) (by decide) (by decide) (by decide)
    (by decide) (by decide) (by decide) (by decide)

/-! ### Claim C6 -/

theorem toList_mk (l : List Char) : (⟨l⟩ : String).toList = l := rfl

theorem mk_toList (s : String) : (⟨s.toList⟩ : String) = s := by
  cases s
  rfl

theorem extractImports_foldl (lines : List String) :
    ∀ acc, lines.foldl
      (fun imports line =>
        let imports :=
          match importMatch line with
          | some spec => imports ++ [spec]
          | none => imports
        match requireMatch line with
        | some spec => imports ++ [spec]
        | none => imports) acc
      = acc ++ lines.flatMap
          (fun line => (importMatch line).toList ++ (requireMatch line).toList) := by
  induction lines with
  | nil => intro acc; simp
  | cons l rest ih =>
    intro acc
    rw [List.foldl_cons, ih, List.flatMap_cons]
    rcases h1 : importMatch l with _ | s1 <;> rcases h2 : requireMatch l with _ | s2 <;>
      simp [h1, h2]

/-- Function `firstCapture` computes exactly the leftmost match of the anchored
matcher: it returns `some cap` iff `cap` is the capture at some start
position before which no start position matches. -/
theorem firstCapture_iff (m : List Char → Option (List Char)) (l : List Char)
    (cap : List Char) :
    firstCapture m l = some cap ↔ ∃ i, IsFirstMatchAt m l i cap := by
  induction l with
  | nil =>
    simp only [firstCapture, IsFirstMatchAt]
    constructor
    · intro h
      exact ⟨0, by simpa using h, fun j hj => absurd hj (Nat.not_lt_zero j)⟩
    · rintro ⟨i, h1, -⟩
      simpa using h1
  | cons c cs ih =>
    simp only [firstCapture]
    rcases hm : m (c :: cs) with _ | cap'
    · rw [ih]
      constructor
      · rintro ⟨i, h1, h2⟩
        refine ⟨i + 1, by simpa [List.drop_succ_cons] using h1, ?_⟩
        intro j hj
        cases j with
        | zero => simpa using hm
        | succ j' =>
          have hj' : j' < i := by omega
          simpa [List.drop_succ_cons] using h2 j' hj'
      · rintro ⟨i, h1, h2⟩
        cases i with
        | zero =>
          rw [List.drop_zero, hm] at h1
          cases h1
        | succ i' =>
          refine ⟨i', by simpa [List.drop_succ_cons] using h1, ?_⟩
          intro j hj
          have := h2 (j + 1) (by omega)
          simpa [List.drop_succ_cons] using this
    · constructor
      · intro h
        exact ⟨0, by simpa using (hm.trans h), fun j hj => absurd hj (Nat.not_lt_zero j)⟩
      · rintro ⟨i, h1, h2⟩
        cases i with
        | zero =>
          rw [List.drop_zero, hm] at h1
          exact h1
        | succ i' =>
          have := h2 0 (Nat.succ_pos i')
          rw [List.drop_zero, hm] at this
          cases this

/-- C6, confirmed: per input line, extraction captures at most one
import-shape match and at most one require-shape match (the leftmost
occurrence of each shape, as `firstCapture_iff` characterises), the output
follows the file top-to-bottom, and on a line matching both shapes the
import-style capture precedes the require-style capture. -/
theorem claim_C6 (content line cap : String) :
    (extractImports content = (jsSplit content '\n').flatMap
      (fun l => (importMatch l).toList ++ (requireMatch l).toList)) ∧
    ((importMatch line).toList.length ≤ 1 ∧ (requireMatch line).toList.length ≤ 1) ∧
    (importMatch line = some cap ↔
      ∃ i, IsFirstMatchAt matchImportFrom line.toList i cap.toList) ∧
    (requireMatch line = some cap ↔
      ∃ i, IsFirstMatchAt matchRequireCall line.toList i cap.toList) := by
  refine ⟨?_, ⟨?_, ?_⟩, ?_, ?_⟩
  · unfold extractImports
    rw [extractImports_foldl]
    simp
  · rcases importMatch line with _ | s <;> simp
  · rcases requireMatch line with _ | s <;> simp
  · unfold importMatch
    constructor
    · intro h
      rcases Option.map_eq_some'.mp h with ⟨l', hl', rfl⟩
      rw [firstCapture_iff] at hl'
      simpa [toList_mk] using hl'
    · rintro ⟨i, h1, h2⟩
      have h3 : firstCapture matchImportFrom line.toList = some cap.toList :=
        (firstCapture_iff _ _ _).mpr ⟨i, h1, h2⟩
      rw [h3]
      simp [mk_toList]
  · unfold requireMatch
    constructor
    · intro h
      rcases Option.map_eq_some'.mp h with ⟨l', hl', rfl⟩
      rw [firstCapture_iff] at hl'
      simpa [toList_mk] using hl'
    · rintro ⟨i, h1, h2⟩
      have h3 : firstCapture matchRequireCall line.toList = some cap.toList :=
        (firstCapture_iff _ _ _).mpr ⟨i, h1, h2⟩
      rw [h3]
      simp [mk_toList]

/-! ### Claim C7 -/

theorem extractImports_empty : extractImports "" = [] := by decide

theorem foldl_congr_mem {α β : Type} (l : List α) :
    ∀ (f g : β → α → β), (∀ b a, a ∈ l → f b a = g b a) →
      ∀ init, l.foldl f init = l.foldl g init := by
  induction l with
  | nil => intro f g _ init; rfl
  | cons a rest ih =>
    intro f g h init
    rw [List.foldl_cons, List.foldl_cons, h init a (List.mem_cons_self a rest)]
    exact ih f g (fun b x hx => h b x (List.mem_cons_of_mem a hx)) _

theorem buildImportGraph_cons (sf : String) (rest : List String)
    (contents : String → Option String) :
    buildImportGraph (sf :: rest) contents =
      match contents sf with
      | some c => (sf, extractImports c) :: buildImportGraph rest contents
      | none => buildImportGraph rest contents := by
  unfold buildImportGraph
  rw [List.filterMap_cons]
  rcases hc : contents sf with _ | c <;> simp [hc]

theorem graphGet_cons (k : String) (v : List String)
    (g : List (String × List String)) (x : String) :
    graphGet ((k, v) :: g) x = if x = k then v else graphGet g x := by
  unfold graphGet
  by_cases h : x = k
  · simp [List.lookup, h]
  · simp [List.lookup, show (x == k) = false by simpa using h, h]

theorem lookup_buildImportGraph_none (sourceFiles : List String)
    (contents : String → Option String) (f : String) (hf : contents f = none) :
    (buildImportGraph sourceFiles contents).lookup f = none := by
  induction sourceFiles with
  | nil => rfl
  | cons sf rest ih =>
    rw [buildImportGraph_cons]
    rcases hc : contents sf with _ | c
    · exact ih
    · have hne : (f == sf) = false := by
        by_cases h : f = sf
        · subst h
          rw [hf] at hc
          cases hc
        · simpa using h
      simpa [List.lookup, hne] using ih

theorem graphGet_buildImportGraph_none (sourceFiles : List String)
    (contents : String → Option String) (f : String) (hf : contents f = none) :
    graphGet (buildImportGraph sourceFiles contents) f = [] := by
  unfold graphGet
  rw [lookup_buildImportGraph_none sourceFiles contents f hf]

theorem graphGet_buildImportGraph_update (sourceFiles : List String)
    (contents : String → Option String) (f : String) (hf : contents f = none) :
    ∀ x, graphGet (buildImportGraph sourceFiles
        (fun y => if y = f then some "" else contents y)) x
      = graphGet (buildImportGraph sourceFiles contents) x := by
  induction sourceFiles with
  | nil => intro x; rfl
  | cons sf rest ih =>
    intro x
    rw [buildImportGraph_cons, buildImportGraph_cons]
    by_cases hsf : sf = f
    · subst hsf
      rw [show (if sf = sf then some "" else contents sf) = some "" by simp, hf]
      dsimp only
      rw [extractImports_empty, graphGet_cons]
      by_cases hx : x = sf
      · subst hx
        rw [if_pos rfl, graphGet_buildImportGraph_none rest contents x hf]
      · rw [if_neg hx]
        exact ih x
    · rw [show (if sf = f then some "" else contents sf) = contents sf by simp [hsf]]
      rcases hc : contents sf with _ | c
      · exact ih x
      · dsimp only
        rw [graphGet_cons, graphGet_cons]
        by_cases hx : x = sf
        · simp [hx]
        · rw [if_neg hx, if_neg hx]
          exact ih x

theorem dfsDetectCycle_congr {g1 g2 : List (String × List String)}
    (fsFiles : List String) (hg : ∀ x, graphGet g1 x = graphGet g2 x) :
    ∀ fuel file s, dfsDetectCycle g1 fsFiles fuel file s =
      dfsDetectCycle g2 fsFiles fuel file s := by
  intro fuel
  induction fuel with
  | zero => intro file s; rfl
  | succ fuel ih =>
    intro file s
    simp only [dfsDetectCycle]
    by_cases h1 : file ∈ s.recursionStack
    · simp [h1]
    · by_cases h2 : file ∈ s.visited
      · simp [h1, h2]
      · simp only [h1, h2, if_false]
        rw [hg file]
        simp only [ih]

theorem runCycleDetection_congr {g1 g2 : List (String × List String)}
    (fsFiles sourceFiles : List String) (hg : ∀ x, graphGet g1 x = graphGet g2 x) :
    runCycleDetection g1 fsFiles sourceFiles = runCycleDetection g2 fsFiles sourceFiles := by
  unfold runCycleDetection
  simp only [dfsDetectCycle_congr fsFiles hg]

theorem usedFilesOf_update (fsFiles sourceFiles : List String)
    (contents : String → Option String) (f : String) (hf : contents f = none) :
    usedFilesOf fsFiles sourceFiles (fun y => if y = f then some "" else contents y)
      = usedFilesOf fsFiles sourceFiles contents := by
  unfold usedFilesOf
  apply foldl_congr_mem sourceFiles _ _ _ []
  intro acc sf _
  by_cases hsf : sf = f
  · subst hsf
    simp [hf, extractImports_empty]
  · simp [hsf]

/-- C7, confirmed: a file whose read fails is treated as producing zero
references — its effective adjacency (`importGraph.get(file) || []`) is the
empty edge set, cycle detection computes exactly what it would compute had
the file been readable with no references, and dead-file detection likewise;
the results for all other files are unaffected. -/
theorem claim_C7 (fsFiles allFiles sourceFiles : List String)
    (contents : String → Option String) (f : String) (hf : contents f = none) :
    graphGet (buildImportGraph sourceFiles contents) f = [] ∧
    detectCircularImports fsFiles sourceFiles contents =
      detectCircularImports fsFiles sourceFiles
        (fun y => if y = f then some "" else contents y) ∧
    detectDeadFiles fsFiles allFiles sourceFiles contents =
      detectDeadFiles fsFiles allFiles sourceFiles
        (fun y => if y = f then some "" else contents y) := by
  refine ⟨?_, ?_, ?_⟩
  · exact graphGet_buildImportGraph_none sourceFiles contents f hf
  · unfold detectCircularImports
    exact (runCycleDetection_congr fsFiles sourceFiles
      (graphGet_buildImportGraph_update sourceFiles contents f hf)).symm
  · unfold detectDeadFiles
    rw [usedFilesOf_update fsFiles sourceFiles contents f hf]

/-- C7 witness: a two-file project whose second file is unreadable. -/
theorem claim_C7_witness :
    graphGet (buildImportGraph ["/p/a.js", "/p/c.js"]
      (fun y => if y = "/p/a.js" then some "const c = require(\"./c\");" else none))
      "/p/c.js" = [] ∧
    detectCircularImports ["/p/a.js", "/p/c.js"] ["/p/a.js", "/p/c.js"]
      (fun y => if y = "/p/a.js" then some "const c = require(\"./c\");" else none) =
      detectCircularImports ["/p/a.js", "/p/c.js"] ["/p/a.js", "/p/c.js"]
        (fun y => if y = "/p/c.js" then some ""
          else if y = "/p/a.js" then some "const c = require(\"./c\");" else none) ∧
    detectDeadFiles ["/p/a.js", "/p/c.js"] ["/p/a.js", "/p/c.js"] ["/p/a.js", "/p/c.js"]
      (fun y => if y = "/p/a.js" then some "const c = require(\"./c\");" else none) =
      detectDeadFiles ["/p/a.js", "/p/c.js"] ["/p/a.js", "/p/c.js"] ["/p/a.js", "/p/c.js"]
        (fun y => if y = "/p/c.js" then some ""
          else if y = "/p/a.js" then some "const c = require(\"./c\");" else none) :=
  claim_C7 ["/p/a.js", "/p/c.js"] ["/p/a.js", "/p/c.js"] ["/p/a.js", "/p/c.js"]
    (fun y => if y = "/p/a.js" then some "const c = require(\"./c\");" else none)
    "/p/c.js" (by decide)

end Analyzer
